import Mathlib

/-!
Verification of the energy_demand repository's load-profile, technology-stock
and share-assignment routines.

The Python source is embedded shallowly: numpy daily arrays become `List ℚ`,
365×24 (day × hour) arrays become `List (List ℚ)`, dictionaries keyed by
strings become association lists or explicit functions, and numpy elementwise
broadcasting becomes `List.map` / `List.zipWith`.  Division by zero in ℚ
yields 0, the convention used when a guard in the claim excludes that case.
-/

namespace EnergyDemand

/-- Sum of all entries of a day × hour matrix (numpy `np.sum` on a 2-D array). -/
def matSum (m : List (List ℚ)) : ℚ :=
  (m.map List.sum).sum

/-- Modelled from the spec: `load_profile.abs_to_rel` (module not included in
the sources; only its call sites are).  Spec and call-site comments describe it
as converting an absolute array to a relative one summing to 1, i.e. dividing
every entry by the total sum.  1-D variant. -/
def abs_to_rel (l : List ℚ) : List ℚ :=
  l.map (fun x => x / l.sum)

/-- Modelled from the spec: `load_profile.abs_to_rel`, 2-D (day × hour)
variant: every entry is divided by the total sum of the array. -/
def abs_to_rel2 (m : List (List ℚ)) : List (List ℚ) :=
  m.map (fun row => row.map (fun x => x / matSum m))

/-- Row selection `shape_yh[[model_yeardays]]` (numpy fancy indexing): keep
the rows whose index appears in `model_yeardays`, in the given order. -/
def selectDays (m : List (List ℚ)) (model_yeardays : List ℕ) : List (List ℚ) :=
  model_yeardays.filterMap (fun d => m.get? d)

/-- `np.max` on a nonempty 1-D array (0 on the empty array, which numpy
rejects; the claims only use nonempty arrays). -/
def listMax : List ℚ → ℚ
  | [] => 0
  | x :: xs => xs.foldl max x

/-- `weather_region.get_shape_peak_yd_factor`: maximum daily demand divided
by total yearly demand. -/
def get_shape_peak_yd_factor (demand_yd : List ℚ) : ℚ :=
  let tot_demand_y := demand_yd.sum
  let max_demand_d := listMax demand_yd
  max_demand_d / tot_demand_y

/-- Inner accumulation of `assumptions.calc_enduse_fuel_tech_by`: for one
(enduse, fueltype) cell, `overall_tech_share += tech_share / eff_by[tech]`
over the technologies of the cell.  The cell is an association list
technology name → share, `eff_by` the base-year efficiency lookup. -/
def overall_tech_share (tech_enduse_cell : List (String × ℚ)) (eff_by : String → ℚ) : ℚ :=
  (tech_enduse_cell.map (fun ts => ts.2 / eff_by ts.1)).sum

/-- Per-technology fuel share of `assumptions.calc_enduse_fuel_tech_by`:
`share_tech_fueltype = (1.0 / overall_tech_share) * (tech_share / eff_by[tech])`. -/
def share_tech_fueltype (tech_enduse_cell : List (String × ℚ)) (eff_by : String → ℚ)
    (tech : String) (share : ℚ) : ℚ :=
  (1 / overall_tech_share tech_enduse_cell eff_by) * (share / eff_by tech)

/-- Defined from the spec's words (§4.4): the implied aggregate (weighted)
efficiency of a technology group is the share-weighted harmonic combination
`1 / Σ(share_tech / eff_tech)`.  Compared below against the fuel shares the
source computes. -/
def weighted_enduse_efficiency (tech_enduse_cell : List (String × ℚ))
    (eff_by : String → ℚ) : ℚ :=
  1 / overall_tech_share tech_enduse_cell eff_by

/-- Example fixture from the spec: two technologies with shares 0.5 / 0.5. -/
def half_half_cell : List (String × ℚ) :=
  [("tech_a", 1 / 2), ("tech_b", 1 / 2)]

/-- Example fixture from the spec: efficiencies 1.0 for `tech_a`, 2.0 for the
rest. -/
def eff_one_two : String → ℚ :=
  fun tech => if tech = "tech_a" then 1 else 2

/-- If every share is nonnegative, every efficiency positive, and the shares
sum to 1, then `overall_tech_share` is positive. -/
theorem overall_tech_share_pos (cell : List (String × ℚ)) (eff_by : String → ℚ)
    (hpos : ∀ p ∈ cell, 0 ≤ p.2 ∧ 0 < eff_by p.1)
    (hsum : 0 < (cell.map Prod.snd).sum) :
    0 < overall_tech_share cell eff_by := by
  induction cell with
  | nil => simp at hsum
  | cons p t ih =>
    have hp := hpos p (List.mem_cons_self p t)
    have hrest : ∀ q ∈ t, 0 ≤ q.2 ∧ 0 < eff_by q.1 :=
      fun q hq => hpos q (List.mem_cons_of_mem p hq)
    have hrest_nonneg : 0 ≤ (t.map (fun ts => ts.2 / eff_by ts.1)).sum := by
      apply List.sum_nonneg
      intro x hx
      obtain ⟨q, hq, rfl⟩ := List.mem_map.1 hx
      exact div_nonneg (hrest q hq).1 (le_of_lt (hrest q hq).2)
    rcases lt_or_eq_of_le hp.1 with hlt | heq
    · have hterm : 0 < p.2 / eff_by p.1 := div_pos hlt hp.2
      simp only [overall_tech_share, List.map_cons, List.sum_cons]
      linarith
    · have hsum2 : 0 < (t.map Prod.snd).sum := by
        simp only [List.map_cons, List.sum_cons, ← heq] at hsum
        linarith
      have := ih hrest hsum2
      simp only [overall_tech_share, List.map_cons, List.sum_cons, ← heq] at *
      rw [zero_div]
      linarith

end EnergyDemand

namespace EnergyDemand

/-- C1: in `calc_enduse_fuel_tech_by`, for every technology group with
nonnegative shares summing to 1 and positive efficiencies, the per-technology
fuel share equals `(share/eff) / Σ(share/eff)`, the fuel shares again sum
to 1, and the implied weighted efficiency is the harmonic combination
`1 / Σ(share/eff)`; for shares 0.5 / 0.5 with efficiencies 1.0 / 2.0 this is
4/3 = 1.333..., not the arithmetic mean 3/2. -/
theorem calc_enduse_fuel_tech_by_harmonic :
    (∀ (cell : List (String × ℚ)) (eff_by : String → ℚ),
      (cell.map Prod.snd).sum = 1 →
      (∀ p ∈ cell, 0 ≤ p.2 ∧ 0 < eff_by p.1) →
      (∀ p ∈ cell, share_tech_fueltype cell eff_by p.1 p.2
          = (p.2 / eff_by p.1) / (cell.map (fun ts => ts.2 / eff_by ts.1)).sum) ∧
      (cell.map (fun p => share_tech_fueltype cell eff_by p.1 p.2)).sum = 1) ∧
    weighted_enduse_efficiency half_half_cell eff_one_two = 4 / 3 ∧
    (4 : ℚ) / 3 ≠ 3 / 2 := by
  refine ⟨?_, ?_, by norm_num⟩
  · intro cell eff_by hsum hpos
    have hS : 0 < overall_tech_share cell eff_by :=
      overall_tech_share_pos cell eff_by hpos (hsum ▸ one_pos)
    constructor
    · intro p _
      simp only [share_tech_fueltype, overall_tech_share]
      rw [one_div_mul_eq_div]
    · simp only [share_tech_fueltype]
      rw [List.sum_map_mul_left]
      have : (cell.map fun p => p.2 / eff_by p.1).sum = overall_tech_share cell eff_by := rfl
      rw [this, one_div_mul_cancel (ne_of_gt hS)]
  · norm_num [weighted_enduse_efficiency, overall_tech_share, half_half_cell, eff_one_two]
    rw [if_neg (by decide : ¬ ("tech_b" = "tech_a"))]
    norm_num

/-- C1 witness: the theorem applied at the concrete 0.5 / 0.5 group with
efficiencies 1.0 / 2.0: the hypotheses hold there and the fuel share of
`tech_a` is `(0.5 / 1) / (0.5/1 + 0.5/2) = 2/3`. -/
theorem calc_enduse_fuel_tech_by_harmonic_witness :
    ((half_half_cell.map Prod.snd).sum = 1) ∧
    share_tech_fueltype half_half_cell eff_one_two "tech_a" (1 / 2) = 2 / 3 := by
  have hsum : (half_half_cell.map Prod.snd).sum = 1 := by
    norm_num [half_half_cell]
  have hpos : ∀ p ∈ half_half_cell, 0 ≤ p.2 ∧ 0 < eff_one_two p.1 := by
    intro p hp
    simp only [half_half_cell, List.mem_cons, List.mem_singleton] at hp
    rcases hp with rfl | hp
    · norm_num [eff_one_two]
    · simp only [List.mem_cons, List.not_mem_nil, or_false] at hp
      subst hp
      norm_num [eff_one_two]
      rw [if_neg (by decide : ¬ ("tech_b" = "tech_a"))]
      norm_num
  have h := ((calc_enduse_fuel_tech_by_harmonic.1 half_half_cell eff_one_two hsum hpos).1
    ("tech_a", 1 / 2) (by simp [half_half_cell]))
  refine ⟨hsum, ?_⟩
  rw [h]
  norm_num [half_half_cell, eff_one_two]
  rw [if_neg (by decide : ¬ ("tech_b" = "tech_a"))]
  norm_num

/-- C7: `get_shape_peak_yd_factor(demand_yd)` returns
`max(demand_yd) / sum(demand_yd)` for every daily demand array with nonzero
total; equivalently the returned factor times the total reproduces the
maximum daily demand. -/
theorem get_shape_peak_yd_factor_eq_max_div_sum
    (demand_yd : List ℚ) (h : demand_yd.sum ≠ 0) :
    get_shape_peak_yd_factor demand_yd = listMax demand_yd / demand_yd.sum ∧
    get_shape_peak_yd_factor demand_yd * demand_yd.sum = listMax demand_yd := by
  constructor
  · rfl
  · show listMax demand_yd / demand_yd.sum * demand_yd.sum = listMax demand_yd
    exact div_mul_cancel₀ _ h

/-- C7 witness: on the concrete array `[1, 3, 2]` the peak factor is
`3 / 6 = 1/2`. -/
theorem get_shape_peak_yd_factor_witness :
    ([(1 : ℚ), 3, 2].sum ≠ 0) ∧
    get_shape_peak_yd_factor [(1 : ℚ), 3, 2] = 1 / 2 := by
  refine ⟨by norm_num, ?_⟩
  have h := get_shape_peak_yd_factor_eq_max_div_sum [(1 : ℚ), 3, 2] (by norm_num)
  rw [h.1]
  norm_num [listMax, max_def]

end EnergyDemand

namespace EnergyDemand

/-- `List.getD` through `List.map`, at an in-bounds index. -/
theorem getD_map_of_lt {α β : Type} (f : α → β) (l : List α) (i : ℕ)
    (hlt : i < l.length) (dval : β) (d0 : α) :
    (l.map f).getD i dval = f (l.getD i d0) := by
  induction l generalizing i with
  | nil => simp at hlt
  | cons a t ih =>
    cases i with
    | zero => rfl
    | succ n =>
      simp only [List.map_cons, List.getD_cons_succ]
      exact ih n (by simpa using hlt)

/-- `List.getD` through an elementwise map over a day × hour matrix, at an
in-bounds (day, hour) position. -/
theorem getD_getD_map2 (f : ℚ → ℚ) (m : List (List ℚ)) (d h : ℕ)
    (hd : d < m.length) (hh : h < (m.getD d []).length) :
    ((m.map (fun row => row.map f)).getD d []).getD h 0
      = f ((m.getD d []).getD h 0) := by
  rw [getD_map_of_lt (fun row => row.map f) m d hd [] []]
  exact getD_map_of_lt f (m.getD d []) h hh 0 0

/-- Elementwise body of `weather_region.service_hybrid_tech_low_high_h_p`:
`fast_factor * (t - low)`, overwritten with 1 above the high cutoff and 0
below the low cutoff (the numpy masked assignments). -/
def service_high_tech_p (hybrid_cutoff_temp_low hybrid_cutoff_temp_high t : ℚ) : ℚ :=
  let fast_factor := 1 / (hybrid_cutoff_temp_high - hybrid_cutoff_temp_low)
  let v := fast_factor * (t - hybrid_cutoff_temp_low)
  if hybrid_cutoff_temp_high < t then 1
  else if t < hybrid_cutoff_temp_low then 0
  else v

/-- Result of `service_hybrid_tech_low_high_h_p`: the dict with keys
`low` and `high`. -/
structure TechLowHighP where
  low : List (List ℚ)
  high : List (List ℚ)

/-- `weather_region.service_hybrid_tech_low_high_h_p`: per-hour share of
service of the low- and high-temperature technology of a hybrid system;
`high` is the interpolated fraction, `low` its complement `1 - high`. -/
def service_hybrid_tech_low_high_h_p (temp_cy : List (List ℚ))
    (hybrid_cutoff_temp_low hybrid_cutoff_temp_high : ℚ) : TechLowHighP :=
  let service_high :=
    temp_cy.map (fun row => row.map
      (service_high_tech_p hybrid_cutoff_temp_low hybrid_cutoff_temp_high))
  { low := service_high.map (fun row => row.map (fun v => 1 - v)),
    high := service_high }

/-- Pointwise properties of the interpolated high-temperature fraction. -/
theorem service_high_tech_p_props (lo hi t : ℚ) (hcut : lo < hi) :
    0 ≤ service_high_tech_p lo hi t ∧ service_high_tech_p lo hi t ≤ 1 ∧
    (t < lo → service_high_tech_p lo hi t = 0) ∧
    (hi < t → service_high_tech_p lo hi t = 1) ∧
    (lo ≤ t → t ≤ hi → service_high_tech_p lo hi t = (t - lo) / (hi - lo)) := by
  have hpos : 0 < hi - lo := by linarith
  simp only [service_high_tech_p]
  split_ifs with h1 h2
  · refine ⟨zero_le_one, le_refl 1, fun hl => absurd hl (by linarith), fun _ => rfl, ?_⟩
    intro _ hle
    exact absurd h1 (not_lt.2 hle)
  · refine ⟨le_refl 0, zero_le_one, fun _ => rfl, fun hg => absurd hg (by linarith), ?_⟩
    intro hge _
    exact absurd h2 (not_lt.2 hge)
  · have hge : lo ≤ t := not_lt.1 h2
    have hle : t ≤ hi := not_lt.1 h1
    rw [one_div_mul_eq_div]
    refine ⟨div_nonneg (by linarith) (le_of_lt hpos), ?_,
      fun hl => absurd hl (not_lt.2 hge), fun hg => absurd hg (not_lt.2 hle),
      fun _ _ => rfl⟩
    rw [div_le_one hpos]
    linarith

end EnergyDemand

namespace EnergyDemand

/-- C10: for cutoffs with `low < high`, the hybrid service split of
`service_hybrid_tech_low_high_h_p` satisfies at every in-bounds hour:
low + high = 1 with both fractions in [0, 1]; high is 0 below the low
cutoff, 1 above the high cutoff, and linearly interpolated as
`(t - low) / (high - low)` in between. -/
theorem service_hybrid_tech_low_high_h_p_split
    (temp_cy : List (List ℚ)) (lo hi : ℚ) (hcut : lo < hi)
    (d h : ℕ) (hd : d < temp_cy.length) (hh : h < (temp_cy.getD d []).length) :
    (((service_hybrid_tech_low_high_h_p temp_cy lo hi).low.getD d []).getD h 0)
      + (((service_hybrid_tech_low_high_h_p temp_cy lo hi).high.getD d []).getD h 0) = 1 ∧
    0 ≤ ((service_hybrid_tech_low_high_h_p temp_cy lo hi).high.getD d []).getD h 0 ∧
    ((service_hybrid_tech_low_high_h_p temp_cy lo hi).high.getD d []).getD h 0 ≤ 1 ∧
    0 ≤ ((service_hybrid_tech_low_high_h_p temp_cy lo hi).low.getD d []).getD h 0 ∧
    ((service_hybrid_tech_low_high_h_p temp_cy lo hi).low.getD d []).getD h 0 ≤ 1 ∧
    ((temp_cy.getD d []).getD h 0 < lo →
      ((service_hybrid_tech_low_high_h_p temp_cy lo hi).high.getD d []).getD h 0 = 0) ∧
    (hi < (temp_cy.getD d []).getD h 0 →
      ((service_hybrid_tech_low_high_h_p temp_cy lo hi).high.getD d []).getD h 0 = 1) ∧
    (lo ≤ (temp_cy.getD d []).getD h 0 → (temp_cy.getD d []).getD h 0 ≤ hi →
      ((service_hybrid_tech_low_high_h_p temp_cy lo hi).high.getD d []).getD h 0
        = ((temp_cy.getD d []).getD h 0 - lo) / (hi - lo)) := by
  set t := (temp_cy.getD d []).getD h 0 with ht
  have hhigh : (service_hybrid_tech_low_high_h_p temp_cy lo hi).high
      = temp_cy.map (fun row => row.map (service_high_tech_p lo hi)) := rfl
  have hhigh_entry :
      ((service_hybrid_tech_low_high_h_p temp_cy lo hi).high.getD d []).getD h 0
        = service_high_tech_p lo hi t := by
    rw [hhigh, getD_getD_map2 _ _ _ _ hd hh]
  have hlow_entry :
      ((service_hybrid_tech_low_high_h_p temp_cy lo hi).low.getD d []).getD h 0
        = 1 - service_high_tech_p lo hi t := by
    have hlow : (service_hybrid_tech_low_high_h_p temp_cy lo hi).low
        = (temp_cy.map (fun row => row.map (service_high_tech_p lo hi))).map
            (fun row => row.map (fun v => 1 - v)) := rfl
    have hd2 : d < (temp_cy.map (fun row => row.map (service_high_tech_p lo hi))).length := by
      simpa using hd
    have hh2 : h < ((temp_cy.map (fun row =>
        row.map (service_high_tech_p lo hi))).getD d []).length := by
      rw [getD_map_of_lt _ _ _ hd [] []]
      simpa using hh
    rw [hlow, getD_getD_map2 _ _ _ _ hd2 hh2, getD_getD_map2 _ _ _ _ hd hh]
  obtain ⟨hp0, hp1, hbelow, habove, hmid⟩ := service_high_tech_p_props lo hi t hcut
  rw [hhigh_entry, hlow_entry]
  refine ⟨by ring, hp0, hp1, by linarith, by linarith, hbelow, habove, hmid⟩

/-- C10 witness: at temperature 6 with cutoffs 5 and 8 the split is
2/3 low and 1/3 high, summing to 1. -/
theorem service_hybrid_tech_low_high_h_p_split_witness :
    ((5 : ℚ) < 8) ∧
    (((service_hybrid_tech_low_high_h_p [[(6 : ℚ)]] 5 8).high.getD 0 []).getD 0 0 = 1 / 3) ∧
    (((service_hybrid_tech_low_high_h_p [[(6 : ℚ)]] 5 8).low.getD 0 []).getD 0 0)
      + (((service_hybrid_tech_low_high_h_p [[(6 : ℚ)]] 5 8).high.getD 0 []).getD 0 0) = 1 := by
  have h := service_hybrid_tech_low_high_h_p_split [[(6 : ℚ)]] 5 8 (by norm_num)
    0 0 (by simp) (by simp)
  refine ⟨by norm_num, ?_, h.1⟩
  have hmid := h.2.2.2.2.2.2.2
  simp only [List.getD_cons_zero] at hmid ⊢
  rw [hmid (by norm_num) (by norm_num)]
  norm_num

end EnergyDemand

namespace EnergyDemand

/-- `List.getD` through `List.zipWith`, at an index in bounds of both lists. -/
theorem getD_zipWith_of_lt {α β γ : Type} (f : α → β → γ) (a : List α) (b : List β)
    (i : ℕ) (ha : i < a.length) (hb : i < b.length) (d : γ) (da : α) (db : β) :
    (List.zipWith f a b).getD i d = f (a.getD i da) (b.getD i db) := by
  induction a generalizing b i with
  | nil => simp at ha
  | cons x xs ih =>
    cases b with
    | nil => simp at hb
    | cons y ys =>
      cases i with
      | zero => rfl
      | succ n =>
        simp only [List.zipWith_cons_cons, List.getD_cons_succ]
        exact ih ys n (by simpa using ha) (by simpa using hb)

/-- Daily heat-pump fuel of `weather_region.get_fuel_shape_heating_hp_yh`:
`hp_daily_fuel = rs_hdd_cy[:, np.newaxis] / tech_eff` — the daily heating
degree days broadcast-divided by the (hourly) current-year heat-pump
efficiency. -/
def hp_daily_fuel (rs_hdd_cy : List ℚ) (tech_eff : List (List ℚ)) : List (List ℚ) :=
  List.zipWith (fun hdd effRow => effRow.map (fun e => hdd / e)) rs_hdd_cy tech_eff

/-- Absolute hourly fuel of `get_fuel_shape_heating_hp_yh`:
`shape_yh_hp = hp_daily_fuel * tech_lp_y_dh`, the daily fuel distributed over
the hours with the heat-pump daily load profile. -/
def shape_yh_hp (rs_hdd_cy : List ℚ) (tech_eff tech_lp_y_dh : List (List ℚ)) :
    List (List ℚ) :=
  List.zipWith (List.zipWith (fun a b => a * b))
    (hp_daily_fuel rs_hdd_cy tech_eff) tech_lp_y_dh

/-- `weather_region.get_fuel_shape_heating_hp_yh`, shape_yh component:
`shape_yh = abs_to_rel(shape_yh_hp)` restricted to the modelled days
(`shape_yh[[model_yeardays]]`). -/
def get_fuel_shape_heating_hp_yh (tech_lp_y_dh tech_eff : List (List ℚ))
    (rs_hdd_cy : List ℚ) (model_yeardays : List ℕ) : List (List ℚ) :=
  selectDays (abs_to_rel2 (shape_yh_hp rs_hdd_cy tech_eff tech_lp_y_dh)) model_yeardays

/-- Mapping division by a constant through a list sum. -/
theorem sum_map_div (l : List ℚ) (s : ℚ) :
    (l.map (fun x => x / s)).sum = l.sum / s := by
  induction l with
  | nil => simp
  | cons x xs ih => simp [ih, add_div]

/-- `matSum` on a cons cell. -/
theorem matSum_cons (r : List ℚ) (t : List (List ℚ)) :
    matSum (r :: t) = r.sum + matSum t := by
  simp [matSum]

/-- Dividing every entry of a 2-D array by a constant divides its total. -/
theorem matSum_map_div (m : List (List ℚ)) (s : ℚ) :
    matSum (m.map (fun row => row.map (fun x => x / s))) = matSum m / s := by
  induction m with
  | nil => simp [matSum]
  | cons r t ih => simp only [List.map_cons, matSum_cons, sum_map_div, ih, add_div]

/-- The total of `abs_to_rel` on a 2-D array is the original total divided by
itself (1 when the total is nonzero, 0 when it is zero). -/
theorem matSum_abs_to_rel2 (m : List (List ℚ)) :
    matSum (abs_to_rel2 m) = matSum m / matSum m :=
  matSum_map_div m (matSum m)

/-- Selecting the rows `0, …, length-1` of a matrix returns the matrix. -/
theorem selectDays_range (m : List (List ℚ)) :
    selectDays m (List.range m.length) = m := by
  induction m with
  | nil => rfl
  | cons row t ih =>
    simp only [selectDays, List.length_cons, List.range_succ_eq_map]
    rw [List.filterMap_cons]
    simp only [List.get?_cons_zero]
    rw [List.filterMap_map]
    have : ((fun d => (row :: t).get? d) ∘ Nat.succ) = fun d => t.get? d := by
      funext d
      rfl
    rw [this]
    exact congrArg (row :: ·) ih

end EnergyDemand

namespace EnergyDemand

/-- C2: in `get_fuel_shape_heating_hp_yh`, the daily heat-pump fuel is the
heating degree days divided by the heat pump's current-year efficiency,
`rs_hdd_cy / eff_cy`, not the raw HDD; this daily fuel is then distributed
over the hours with the heat-pump daily load profile and only afterwards
normalized into the returned shape. -/
theorem get_fuel_shape_heating_hp_yh_daily_fuel
    (tech_lp_y_dh tech_eff : List (List ℚ)) (rs_hdd_cy : List ℚ)
    (model_yeardays : List ℕ) (d h : ℕ)
    (hd1 : d < rs_hdd_cy.length) (hd2 : d < tech_eff.length)
    (hd3 : d < tech_lp_y_dh.length)
    (hh1 : h < (tech_eff.getD d []).length)
    (hh2 : h < (tech_lp_y_dh.getD d []).length) :
    ((hp_daily_fuel rs_hdd_cy tech_eff).getD d []).getD h 0
      = rs_hdd_cy.getD d 0 / (tech_eff.getD d []).getD h 0 ∧
    ((shape_yh_hp rs_hdd_cy tech_eff tech_lp_y_dh).getD d []).getD h 0
      = (rs_hdd_cy.getD d 0 / (tech_eff.getD d []).getD h 0)
          * (tech_lp_y_dh.getD d []).getD h 0 ∧
    get_fuel_shape_heating_hp_yh tech_lp_y_dh tech_eff rs_hdd_cy model_yeardays
      = selectDays (abs_to_rel2 (shape_yh_hp rs_hdd_cy tech_eff tech_lp_y_dh))
          model_yeardays := by
  have hrow : (hp_daily_fuel rs_hdd_cy tech_eff).getD d []
      = (tech_eff.getD d []).map (fun e => rs_hdd_cy.getD d 0 / e) := by
    simp only [hp_daily_fuel]
    exact getD_zipWith_of_lt _ rs_hdd_cy tech_eff d hd1 hd2 [] 0 []
  have hfuel : ((hp_daily_fuel rs_hdd_cy tech_eff).getD d []).getD h 0
      = rs_hdd_cy.getD d 0 / (tech_eff.getD d []).getD h 0 := by
    rw [hrow]
    exact getD_map_of_lt _ _ h hh1 0 0
  refine ⟨hfuel, ?_, rfl⟩
  have hdlen : d < (hp_daily_fuel rs_hdd_cy tech_eff).length := by
    simp only [hp_daily_fuel, List.length_zipWith]
    exact lt_min hd1 hd2
  have hhlen : h < ((hp_daily_fuel rs_hdd_cy tech_eff).getD d []).length := by
    rw [hrow, List.length_map]
    exact hh1
  have hOuter : (shape_yh_hp rs_hdd_cy tech_eff tech_lp_y_dh).getD d []
      = List.zipWith (fun a b => a * b)
          ((hp_daily_fuel rs_hdd_cy tech_eff).getD d [])
          (tech_lp_y_dh.getD d []) := by
    simp only [shape_yh_hp]
    exact getD_zipWith_of_lt _ _ tech_lp_y_dh d hdlen hd3 [] [] []
  rw [hOuter, getD_zipWith_of_lt _ _ _ h hhlen hh2 0 0 0, hfuel]

/-- C2 witness: one day with HDD 6, constant efficiency 2 and load profile
value 1/2 gives daily fuel 6 / 2 = 3 and absolute hourly fuel 3 × 1/2. -/
theorem get_fuel_shape_heating_hp_yh_daily_fuel_witness :
    ((hp_daily_fuel [(6 : ℚ)] [[(2 : ℚ)]]).getD 0 []).getD 0 0 = 3 ∧
    ((shape_yh_hp [(6 : ℚ)] [[(2 : ℚ)]] [[(1 : ℚ) / 2]]).getD 0 []).getD 0 0 = 3 / 2 := by
  have h := get_fuel_shape_heating_hp_yh_daily_fuel [[(1 : ℚ) / 2]] [[(2 : ℚ)]]
    [(6 : ℚ)] [0] 0 0 (by simp) (by simp) (by simp) (by simp) (by simp)
  constructor
  · rw [h.1]
    norm_num
  · rw [h.2.1]
    norm_num

end EnergyDemand

namespace EnergyDemand

/-- An element of `zipWith f a b` is `f x y` for some `x ∈ a`, `y ∈ b`. -/
theorem exists_of_mem_zipWith {α β γ : Type} {f : α → β → γ} {a : List α}
    {b : List β} {c : γ} (h : c ∈ List.zipWith f a b) :
    ∃ x ∈ a, ∃ y ∈ b, c = f x y := by
  induction a generalizing b with
  | nil => simp at h
  | cons x xs ih =>
    cases b with
    | nil => simp at h
    | cons y ys =>
      simp only [List.zipWith_cons_cons, List.mem_cons] at h
      rcases h with rfl | h
      · exact ⟨x, List.mem_cons_self x xs, y, List.mem_cons_self y ys, rfl⟩
      · obtain ⟨u, hu, v, hv, rfl⟩ := ih h
        exact ⟨u, List.mem_cons_of_mem x hu, v, List.mem_cons_of_mem y hv, rfl⟩

/-- Every row of `shape_yh_hp` has 24 hours when the efficiency and load
profile rows do. -/
theorem shape_yh_hp_row_length (rs_hdd_cy : List ℚ) (tech_eff tech_lp_y_dh : List (List ℚ))
    (hrow2 : ∀ r ∈ tech_eff, r.length = 24)
    (hrow3 : ∀ r ∈ tech_lp_y_dh, r.length = 24) :
    ∀ r ∈ shape_yh_hp rs_hdd_cy tech_eff tech_lp_y_dh, r.length = 24 := by
  intro r hr
  obtain ⟨x, hx, y, hy, rfl⟩ := exists_of_mem_zipWith hr
  obtain ⟨hddv, _, erow, herow, rfl⟩ := exists_of_mem_zipWith hx
  rw [List.length_zipWith, List.length_map, hrow2 erow herow, hrow3 y hy]
  exact min_self 24

end EnergyDemand

namespace EnergyDemand

/-- Selecting rows `0, …, n-1` of a matrix of `n` rows returns the matrix. -/
theorem selectDays_range_of_length (m : List (List ℚ)) (n : ℕ) (h : m.length = n) :
    selectDays m (List.range n) = m :=
  h ▸ selectDays_range m

/-- C5 counterexample: the heating-degree-day array of 365 ones has positive
total and the all-zero (hence nonnegative) 365×24 load profile is admitted by
the claim, yet the shape returned by `get_fuel_shape_heating_hp_yh` (with unit
efficiency and all 365 days modelled) sums to 0, not 1. -/
theorem get_fuel_shape_heating_hp_yh_zero_profile :
    ((List.replicate 365 (1 : ℚ)).sum = 365) ∧
    matSum (get_fuel_shape_heating_hp_yh
        (List.replicate 365 (List.replicate 24 (0 : ℚ)))
        (List.replicate 365 (List.replicate 24 (1 : ℚ)))
        (List.replicate 365 (1 : ℚ)) (List.range 365)) = 0 ∧
    (0 : ℚ) ≠ 1 := by
  refine ⟨by rw [List.sum_replicate, nsmul_eq_mul]; norm_num, ?_, by norm_num⟩
  have hM : shape_yh_hp (List.replicate 365 (1 : ℚ))
      (List.replicate 365 (List.replicate 24 (1 : ℚ)))
      (List.replicate 365 (List.replicate 24 (0 : ℚ)))
      = List.replicate 365 (List.replicate 24 (0 : ℚ)) := by
    rw [shape_yh_hp, hp_daily_fuel, List.zipWith_replicate, List.zipWith_replicate]
    rw [List.map_replicate, List.zipWith_replicate]
    simp
  have hM0 : matSum (List.replicate 365 (List.replicate 24 (0 : ℚ))) = 0 := by
    rw [matSum, List.map_replicate, List.sum_replicate, List.sum_replicate]
    simp
  have hlen : (abs_to_rel2 (List.replicate 365 (List.replicate 24 (0 : ℚ)))).length = 365 := by
    rw [abs_to_rel2, List.length_map, List.length_replicate]
  show matSum (selectDays (abs_to_rel2 (shape_yh_hp _ _ _)) (List.range 365)) = 0
  rw [hM, selectDays_range_of_length _ 365 hlen, matSum_abs_to_rel2, hM0]
  norm_num

end EnergyDemand

namespace EnergyDemand

/-- C5 (amended): for a 365-day HDD array with positive total, nonnegative
365×24 load profile and 365×24 efficiency, and an absolute combined fuel
shape with nonzero total (the condition the all-zero profile violates), the
shape returned by `get_fuel_shape_heating_hp_yh` with all 365 days modelled
is a 365×24 array whose entries sum to exactly 1. -/
theorem get_fuel_shape_heating_hp_yh_sums_to_one
    (tech_lp_y_dh tech_eff : List (List ℚ)) (rs_hdd_cy : List ℚ)
    (hlen1 : rs_hdd_cy.length = 365) (hlen2 : tech_eff.length = 365)
    (hlen3 : tech_lp_y_dh.length = 365)
    (hrow2 : ∀ r ∈ tech_eff, r.length = 24)
    (hrow3 : ∀ r ∈ tech_lp_y_dh, r.length = 24)
    (_hhdd : 0 < rs_hdd_cy.sum)
    (_hlp : ∀ r ∈ tech_lp_y_dh, ∀ x ∈ r, 0 ≤ x)
    (htot : matSum (shape_yh_hp rs_hdd_cy tech_eff tech_lp_y_dh) ≠ 0) :
    (get_fuel_shape_heating_hp_yh tech_lp_y_dh tech_eff rs_hdd_cy
        (List.range 365)).length = 365 ∧
    (∀ r ∈ get_fuel_shape_heating_hp_yh tech_lp_y_dh tech_eff rs_hdd_cy
        (List.range 365), r.length = 24) ∧
    matSum (get_fuel_shape_heating_hp_yh tech_lp_y_dh tech_eff rs_hdd_cy
        (List.range 365)) = 1 := by
  have hMlen : (shape_yh_hp rs_hdd_cy tech_eff tech_lp_y_dh).length = 365 := by
    rw [shape_yh_hp, List.length_zipWith, hp_daily_fuel, List.length_zipWith,
      hlen1, hlen2, hlen3]
    rfl
  have hAlen : (abs_to_rel2 (shape_yh_hp rs_hdd_cy tech_eff tech_lp_y_dh)).length = 365 := by
    rw [abs_to_rel2, List.length_map, hMlen]
  have hsel : get_fuel_shape_heating_hp_yh tech_lp_y_dh tech_eff rs_hdd_cy (List.range 365)
      = abs_to_rel2 (shape_yh_hp rs_hdd_cy tech_eff tech_lp_y_dh) := by
    rw [get_fuel_shape_heating_hp_yh, selectDays_range_of_length _ 365 hAlen]
  refine ⟨by rw [hsel]; exact hAlen, ?_, ?_⟩
  · intro r hr
    rw [hsel] at hr
    obtain ⟨row, hrow, rfl⟩ := List.mem_map.1 hr
    rw [List.length_map]
    exact shape_yh_hp_row_length rs_hdd_cy tech_eff tech_lp_y_dh hrow2 hrow3 row hrow
  · rw [hsel, matSum_abs_to_rel2, div_self htot]

/-- C5 witness: the all-ones 365×24 profile and efficiency with all-ones HDD
satisfy the hypotheses (total 8760 ≠ 0) and give a 365×24 shape summing to 1. -/
theorem get_fuel_shape_heating_hp_yh_sums_to_one_witness :
    (0 : ℚ) < (List.replicate 365 (1 : ℚ)).sum ∧
    matSum (get_fuel_shape_heating_hp_yh
        (List.replicate 365 (List.replicate 24 (1 : ℚ)))
        (List.replicate 365 (List.replicate 24 (1 : ℚ)))
        (List.replicate 365 (1 : ℚ)) (List.range 365)) = 1 := by
  have hM : shape_yh_hp (List.replicate 365 (1 : ℚ))
      (List.replicate 365 (List.replicate 24 (1 : ℚ)))
      (List.replicate 365 (List.replicate 24 (1 : ℚ)))
      = List.replicate 365 (List.replicate 24 (1 : ℚ)) := by
    rw [shape_yh_hp, hp_daily_fuel, List.zipWith_replicate, List.map_replicate,
      List.zipWith_replicate]
    simp
  have hsum : (List.replicate 365 (1 : ℚ)).sum = 365 := by
    rw [List.sum_replicate, nsmul_eq_mul]
    norm_num
  have htot : matSum (shape_yh_hp (List.replicate 365 (1 : ℚ))
      (List.replicate 365 (List.replicate 24 (1 : ℚ)))
      (List.replicate 365 (List.replicate 24 (1 : ℚ)))) ≠ 0 := by
    rw [hM, matSum, List.map_replicate, List.sum_replicate, List.sum_replicate,
      nsmul_eq_mul, nsmul_eq_mul]
    norm_num
  have h := get_fuel_shape_heating_hp_yh_sums_to_one
    (List.replicate 365 (List.replicate 24 (1 : ℚ)))
    (List.replicate 365 (List.replicate 24 (1 : ℚ)))
    (List.replicate 365 (1 : ℚ))
    (List.length_replicate 365 _) (List.length_replicate 365 _) (List.length_replicate 365 _)
    (fun r hr => by rw [List.eq_of_mem_replicate hr]; exact List.length_replicate 24 _)
    (fun r hr => by rw [List.eq_of_mem_replicate hr]; exact List.length_replicate 24 _)
    (by rw [hsum]; norm_num)
    (fun r hr x hx => by
      rw [List.eq_of_mem_replicate hr] at hx
      rw [List.eq_of_mem_replicate hx]
      norm_num)
    htot
  exact ⟨by rw [hsum]; norm_num, h.2.2⟩

end EnergyDemand

namespace EnergyDemand

/-- The weekend-correction step of `WeatherRegion.__init__` for the service
and industry heating shapes: the daily heating shape is multiplied
elementwise by the weekend correction factors and the product is then
converted back to a relative shape with `abs_to_rel`. -/
def weekend_corrected_shape_yd (fuel_shape_heating_yd weekend_f : List ℚ) : List ℚ :=
  abs_to_rel (List.zipWith (fun a b => a * b) fuel_shape_heating_yd weekend_f)

/-- C6 counterexample: with daily shape `[1, 1]` and correction factors
`[0, 0]` the renormalized shape sums to 0, so the claim's "sums to 1.0
regardless of the correction factors" fails when the corrected shape has
zero total. -/
theorem weekend_corrected_shape_yd_zero_factors :
    (weekend_corrected_shape_yd [(1 : ℚ), 1] [0, 0]).sum = 0 ∧ (0 : ℚ) ≠ 1 := by
  constructor
  · simp [weekend_corrected_shape_yd, abs_to_rel, List.zipWith]
  · norm_num

/-- C6 (amended): the weekend correction is applied before renormalization —
the engine multiplies the daily shape elementwise by the correction factors
and only then converts the product back to a relative shape — so for every
correction-factor array for which the corrected shape has nonzero total the
final daily shape sums to exactly 1. -/
theorem weekend_corrected_shape_yd_sums_to_one
    (fuel_shape_heating_yd weekend_f : List ℚ)
    (h : (List.zipWith (fun a b => a * b) fuel_shape_heating_yd weekend_f).sum ≠ 0) :
    weekend_corrected_shape_yd fuel_shape_heating_yd weekend_f
      = abs_to_rel (List.zipWith (fun a b => a * b) fuel_shape_heating_yd weekend_f) ∧
    (weekend_corrected_shape_yd fuel_shape_heating_yd weekend_f).sum = 1 := by
  refine ⟨rfl, ?_⟩
  show ((List.zipWith (fun a b => a * b) fuel_shape_heating_yd weekend_f).map _).sum = 1
  rw [sum_map_div, div_self h]

/-- C6 witness: shape `[1, 1]` with factors `[1/2, 1]` gives the corrected
total 3/2 ≠ 0 and a renormalized shape summing to 1. -/
theorem weekend_corrected_shape_yd_sums_to_one_witness :
    ((List.zipWith (fun a b => a * b) [(1 : ℚ), 1] [1 / 2, 1]).sum ≠ 0) ∧
    (weekend_corrected_shape_yd [(1 : ℚ), 1] [1 / 2, 1]).sum = 1 := by
  have h : (List.zipWith (fun a b => a * b) [(1 : ℚ), 1] [1 / 2, 1]).sum ≠ 0 := by
    simp [List.zipWith]
    norm_num
  exact ⟨h, (weekend_corrected_shape_yd_sums_to_one [(1 : ℚ), 1] [1 / 2, 1] h).2⟩

end EnergyDemand

namespace EnergyDemand

/-- A technology efficiency value: a temperature-independent scalar, or a
day × hour array for heat pumps. -/
inductive EffVal where
  | scalar (q : ℚ)
  | hourly (m : List (List ℚ))
deriving DecidableEq

/-- Modelled from the spec: `tech_related.calc_eff_cy` (module not included
in the sources; only its call sites are).  Realized current-year efficiency:
the efficiency is interpolated linearly between `eff_by` at the base year and
`eff_ey` at `year_eff_ey` (clamped flat before the base year and after
`year_eff_ey`) and the gain is scaled by the achieved factor:
`eff_by + eff_achieved * (interp - eff_by)`. -/
def calc_eff_cy (base_yr curr_yr year_eff_ey : ℤ) (eff_by eff_ey eff_achieved : ℚ) : ℚ :=
  let interp :=
    if curr_yr ≤ base_yr then eff_by
    else if year_eff_ey ≤ curr_yr then eff_ey
    else eff_by + (eff_ey - eff_by) * (((curr_yr - base_yr : ℤ) : ℚ)
      / ((year_eff_ey - base_yr : ℤ) : ℚ))
  eff_by + eff_achieved * (interp - eff_by)

/-- Modelled from the spec: `tech_related.calc_hp_eff` (module not included
in the sources; only its call sites are).  Heat-pump efficiency computed per
hour from the hourly temperature array:
`eff(t) = eff_flat + slope × (t − balance_temperature)`; the year-dependent
efficiency enters only through the intercept `eff_flat`.  The fixed slope
assumption constant is passed explicitly here. -/
def calc_hp_eff (temp_yh : List (List ℚ)) (eff_flat slope t_base_heating : ℚ) :
    List (List ℚ) :=
  temp_yh.map (fun row => row.map (fun t => eff_flat + slope * (t - t_base_heating)))

/-- A realized technology of `technological_stock.Technology`: the attributes
the dummy and generic branches of the constructor may set.  Attributes the
constructor leaves unassigned are `none`. -/
structure Technology where
  tech_name : String
  tech_type : String
  eff_by : Option EffVal
  eff_cy : Option EffVal
deriving DecidableEq

/-- `technological_stock.Technology.__init__`: the `dummy_tech` branch
assigns only the name and the type (no efficiency attributes); otherwise
the base- and current-year efficiencies are set — per-hour via `calc_hp_eff`
on the respective temperature array for the heat-pump type, and as
temperature-independent scalars for every other type. -/
def Technology.init (tech_name tech_type : String)
    (tech_eff_by tech_eff_ey tech_eff_achieved : ℚ)
    (base_yr curr_yr year_eff_ey : ℤ)
    (temp_by temp_cy : List (List ℚ))
    (t_base_heating_by t_base_heating_cy slope : ℚ) : Technology :=
  if tech_name = "dummy_tech" then
    { tech_name := tech_name, tech_type := tech_type,
      eff_by := none, eff_cy := none }
  else if tech_type = "heat_pump" then
    { tech_name := tech_name, tech_type := tech_type,
      eff_by := some (.hourly (calc_hp_eff temp_by tech_eff_by slope t_base_heating_by)),
      eff_cy := some (.hourly (calc_hp_eff temp_cy
        (calc_eff_cy base_yr curr_yr year_eff_ey tech_eff_by tech_eff_ey tech_eff_achieved)
        slope t_base_heating_cy)) }
  else
    { tech_name := tech_name, tech_type := tech_type,
      eff_by := some (.scalar tech_eff_by),
      eff_cy := some (.scalar (calc_eff_cy base_yr curr_yr year_eff_ey
        tech_eff_by tech_eff_ey tech_eff_achieved)) }

end EnergyDemand

namespace EnergyDemand

/-- C3: for a heat-pump technology (any real name), `eff_cy` is the hourly
array `calc_hp_eff(temp_cy, calc_eff_cy(...), t_base_heating_cy)` whose entry
at every in-bounds hour equals `eff_flat + slope × (t − balance)` with
`eff_flat` the current-year scalar efficiency; every non-heat-pump (and
non-dummy) technology instead gets the temperature-independent scalar
`eff_cy`. -/
theorem technology_eff_cy_heat_pump_hourly
    (tech_name : String) (hname : tech_name ≠ "dummy_tech")
    (tech_eff_by tech_eff_ey tech_eff_achieved : ℚ)
    (base_yr curr_yr year_eff_ey : ℤ)
    (temp_by temp_cy : List (List ℚ))
    (t_base_heating_by t_base_heating_cy slope : ℚ)
    (d h : ℕ) (hd : d < temp_cy.length) (hh : h < (temp_cy.getD d []).length) :
    (Technology.init tech_name "heat_pump" tech_eff_by tech_eff_ey tech_eff_achieved
        base_yr curr_yr year_eff_ey temp_by temp_cy
        t_base_heating_by t_base_heating_cy slope).eff_cy
      = some (EffVal.hourly (calc_hp_eff temp_cy
          (calc_eff_cy base_yr curr_yr year_eff_ey tech_eff_by tech_eff_ey tech_eff_achieved)
          slope t_base_heating_cy)) ∧
    ((calc_hp_eff temp_cy
        (calc_eff_cy base_yr curr_yr year_eff_ey tech_eff_by tech_eff_ey tech_eff_achieved)
        slope t_base_heating_cy).getD d []).getD h 0
      = calc_eff_cy base_yr curr_yr year_eff_ey tech_eff_by tech_eff_ey tech_eff_achieved
          + slope * ((temp_cy.getD d []).getD h 0 - t_base_heating_cy) ∧
    (∀ tech_type, tech_type ≠ "heat_pump" →
      (Technology.init tech_name tech_type tech_eff_by tech_eff_ey tech_eff_achieved
          base_yr curr_yr year_eff_ey temp_by temp_cy
          t_base_heating_by t_base_heating_cy slope).eff_cy
        = some (EffVal.scalar (calc_eff_cy base_yr curr_yr year_eff_ey
            tech_eff_by tech_eff_ey tech_eff_achieved))) := by
  refine ⟨?_, ?_, ?_⟩
  · simp [Technology.init, hname]
  · exact getD_getD_map2 _ temp_cy d h hd hh
  · intro tech_type htt
    simp [Technology.init, hname, htt]

/-- C3 witness: name `heat_pumps_electricity`, flat current-year efficiency 2
(base year = current year 2015), slope −1/10, balance temperature 15 and the
single hourly temperature 10 give the hourly efficiency
`2 + (−1/10)×(10−15) = 5/2`. -/
theorem technology_eff_cy_heat_pump_hourly_witness :
    ("heat_pumps_electricity" ≠ "dummy_tech") ∧
    ((calc_hp_eff [[(10 : ℚ)]]
        (calc_eff_cy 2015 2015 2030 2 3 1) (-1 / 10) 15).getD 0 []).getD 0 0 = 5 / 2 := by
  have hname : ("heat_pumps_electricity" : String) ≠ "dummy_tech" := by decide
  have h := technology_eff_cy_heat_pump_hourly "heat_pumps_electricity" hname
    2 3 1 2015 2015 2030 [[(10 : ℚ)]] [[(10 : ℚ)]] 15 15 (-1 / 10)
    0 0 (by simp) (by simp)
  refine ⟨hname, ?_⟩
  rw [h.2.1]
  have hflat : calc_eff_cy 2015 2015 2030 2 3 1 = 2 := by
    simp [calc_eff_cy]
  rw [hflat]
  norm_num

/-- C8 counterexample: the Technology instance the stock constructs for the
`dummy_tech` placeholder carries no efficiency attributes at all — `eff_by`
and `eff_cy` are never assigned (`none`), not 1.0 as claimed. -/
theorem technology_dummy_tech_no_eff :
    (Technology.init "dummy_tech" "dummy_tech" 1 1 1 2015 2020 2030
        [[(10 : ℚ)]] [[(10 : ℚ)]] 15 15 0).eff_by = none ∧
    (Technology.init "dummy_tech" "dummy_tech" 1 1 1 2015 2020 2030
        [[(10 : ℚ)]] [[(10 : ℚ)]] 15 15 0).eff_cy = none ∧
    (none : Option EffVal) ≠ some (EffVal.scalar 1) := by
  refine ⟨?_, ?_, by simp⟩ <;> simp [Technology.init]

/-- C8 (amended): for every argument list, the `dummy_tech` branch of the
Technology constructor assigns only the name and the type: both efficiency
attributes stay unassigned (`none`); no efficiency value 1.0 is stored on
the instance. -/
theorem technology_dummy_tech_only_name_type
    (tech_type : String) (tech_eff_by tech_eff_ey tech_eff_achieved : ℚ)
    (base_yr curr_yr year_eff_ey : ℤ) (temp_by temp_cy : List (List ℚ))
    (t_base_heating_by t_base_heating_cy slope : ℚ) :
    Technology.init "dummy_tech" tech_type tech_eff_by tech_eff_ey tech_eff_achieved
        base_yr curr_yr year_eff_ey temp_by temp_cy
        t_base_heating_by t_base_heating_cy slope
      = { tech_name := "dummy_tech", tech_type := tech_type,
          eff_by := none, eff_cy := none } := by
  simp [Technology.init]

end EnergyDemand

namespace EnergyDemand

/-- The attributes a stored technology object of `TechStock` exposes to
`get_tech_attr` (the nine recognized attribute names). -/
structure TechObject where
  tech_fueltype : String
  tech_type : String
  tech_fueltype_int : ℤ
  eff_cy : EffVal
  eff_by : EffVal
  tech_low_temp : ℚ
  tech_low_temp_fueltype : String
  tech_high_temp_fueltype : String
  fueltype_share_yh_all_h : List (List ℚ)
deriving DecidableEq

/-- A heterogeneous attribute value returned by the string dispatch. -/
inductive AttrValue where
  | str (s : String)
  | int (i : ℤ)
  | eff (e : EffVal)
  | rat (q : ℚ)
  | arr (m : List (List ℚ))
deriving DecidableEq

/-- Result of the attribute dispatch: the stored value, or process
termination via `sys.exit` with an error message. -/
inductive AttrResult where
  | ok (v : AttrValue)
  | sysExit (msg : String)
deriving DecidableEq

/-- The if/elif chain of `TechStock.get_tech_attr` after the dictionary
lookup: the nine recognized attribute names return the stored attribute;
every other name reaches
`sys.exit("Error: Attribute not found " + attribute_to_get)`. -/
def get_tech_attr_obj (tech_object : TechObject) (attribute_to_get : String) : AttrResult :=
  if attribute_to_get = "tech_fueltype" then .ok (.str tech_object.tech_fueltype)
  else if attribute_to_get = "tech_type" then .ok (.str tech_object.tech_type)
  else if attribute_to_get = "tech_fueltype_int" then .ok (.int tech_object.tech_fueltype_int)
  else if attribute_to_get = "eff_cy" then .ok (.eff tech_object.eff_cy)
  else if attribute_to_get = "eff_by" then .ok (.eff tech_object.eff_by)
  else if attribute_to_get = "tech_low_temp" then .ok (.rat tech_object.tech_low_temp)
  else if attribute_to_get = "tech_low_temp_fueltype" then
    .ok (.str tech_object.tech_low_temp_fueltype)
  else if attribute_to_get = "tech_high_temp_fueltype" then
    .ok (.str tech_object.tech_high_temp_fueltype)
  else if attribute_to_get = "fueltype_share_yh_all_h" then
    .ok (.arr tech_object.fueltype_share_yh_all_h)
  else .sysExit ("Error: Attribute not found " ++ attribute_to_get)

/-- The dictionary access `self.stock_technologies[(tech_name, enduse)]`. -/
def stock_lookup (stock_technologies : List ((String × String) × TechObject))
    (key : String × String) : Option TechObject :=
  (stock_technologies.find? (fun e => e.1 == key)).map Prod.snd

/-- `TechStock.get_tech_attr`: look the technology object up under
`(tech_name, enduse)` and dispatch on the attribute name. -/
def get_tech_attr (stock_technologies : List ((String × String) × TechObject))
    (enduse tech_name attribute_to_get : String) : Option AttrResult :=
  (stock_lookup stock_technologies (tech_name, enduse)).map
    (fun tech_object => get_tech_attr_obj tech_object attribute_to_get)

/-- The nine attribute names `get_tech_attr` recognizes. -/
def recognized_attrs : List String :=
  ["tech_fueltype", "tech_type", "tech_fueltype_int", "eff_cy", "eff_by",
   "tech_low_temp", "tech_low_temp_fueltype", "tech_high_temp_fueltype",
   "fueltype_share_yh_all_h"]

end EnergyDemand

namespace EnergyDemand

/-- C9: for every `(tech_name, enduse)` pair present in the stock,
`get_tech_attr` returns the stored attribute value for each of the nine
recognized attribute names, and for every other attribute name terminates
via `sys.exit` with an "Attribute not found" message instead of returning a
value. -/
theorem get_tech_attr_dispatch
    (stock : List ((String × String) × TechObject)) (enduse tech_name : String)
    (obj : TechObject)
    (hfound : stock_lookup stock (tech_name, enduse) = some obj) :
    get_tech_attr stock enduse tech_name "tech_fueltype"
      = some (.ok (.str obj.tech_fueltype)) ∧
    get_tech_attr stock enduse tech_name "tech_type"
      = some (.ok (.str obj.tech_type)) ∧
    get_tech_attr stock enduse tech_name "tech_fueltype_int"
      = some (.ok (.int obj.tech_fueltype_int)) ∧
    get_tech_attr stock enduse tech_name "eff_cy"
      = some (.ok (.eff obj.eff_cy)) ∧
    get_tech_attr stock enduse tech_name "eff_by"
      = some (.ok (.eff obj.eff_by)) ∧
    get_tech_attr stock enduse tech_name "tech_low_temp"
      = some (.ok (.rat obj.tech_low_temp)) ∧
    get_tech_attr stock enduse tech_name "tech_low_temp_fueltype"
      = some (.ok (.str obj.tech_low_temp_fueltype)) ∧
    get_tech_attr stock enduse tech_name "tech_high_temp_fueltype"
      = some (.ok (.str obj.tech_high_temp_fueltype)) ∧
    get_tech_attr stock enduse tech_name "fueltype_share_yh_all_h"
      = some (.ok (.arr obj.fueltype_share_yh_all_h)) ∧
    (∀ attr, attr ∉ recognized_attrs →
      get_tech_attr stock enduse tech_name attr
        = some (.sysExit ("Error: Attribute not found " ++ attr))) := by
  have hbase : ∀ attr, get_tech_attr stock enduse tech_name attr
      = some (get_tech_attr_obj obj attr) := by
    intro attr
    rw [get_tech_attr, hfound]
    rfl
  refine ⟨hbase _, hbase _, hbase _, hbase _, hbase _, hbase _, hbase _, hbase _, hbase _, ?_⟩
  intro attr hattr
  simp only [recognized_attrs, List.mem_cons, List.not_mem_nil, or_false] at hattr
  push_neg at hattr
  obtain ⟨h1, h2, h3, h4, h5, h6, h7, h8, h9⟩ := hattr
  rw [hbase attr, get_tech_attr_obj, if_neg h1, if_neg h2, if_neg h3, if_neg h4,
    if_neg h5, if_neg h6, if_neg h7, if_neg h8, if_neg h9]

/-- C9 witness: a singleton stock holding one concrete object under
`("boiler_gas", "rs_space_heating")`: the recognized name `eff_cy` returns
the stored value and the unknown name `bogus` reaches the `sys.exit` path. -/
theorem get_tech_attr_dispatch_witness :
    (stock_lookup [(("boiler_gas", "rs_space_heating"),
        ⟨"gas", "boiler", 1, EffVal.scalar (1 / 2), EffVal.scalar (1 / 2), 0,
          "", "", []⟩)] ("boiler_gas", "rs_space_heating")
      = some ⟨"gas", "boiler", 1, EffVal.scalar (1 / 2), EffVal.scalar (1 / 2), 0,
          "", "", []⟩) ∧
    get_tech_attr [(("boiler_gas", "rs_space_heating"),
        ⟨"gas", "boiler", 1, EffVal.scalar (1 / 2), EffVal.scalar (1 / 2), 0,
          "", "", []⟩)] "rs_space_heating" "boiler_gas" "eff_cy"
      = some (.ok (.eff (EffVal.scalar (1 / 2)))) ∧
    get_tech_attr [(("boiler_gas", "rs_space_heating"),
        ⟨"gas", "boiler", 1, EffVal.scalar (1 / 2), EffVal.scalar (1 / 2), 0,
          "", "", []⟩)] "rs_space_heating" "boiler_gas" "bogus"
      = some (.sysExit "Error: Attribute not found bogus") := by
  have hfound : stock_lookup [(("boiler_gas", "rs_space_heating"),
      ⟨"gas", "boiler", 1, EffVal.scalar (1 / 2), EffVal.scalar (1 / 2), 0,
        "", "", []⟩)] ("boiler_gas", "rs_space_heating")
      = some ⟨"gas", "boiler", 1, EffVal.scalar (1 / 2), EffVal.scalar (1 / 2), 0,
          "", "", []⟩ := by
    rw [stock_lookup]
    rfl
  have h := get_tech_attr_dispatch _ "rs_space_heating" "boiler_gas" _ hfound
  exact ⟨hfound, h.2.2.2.1, h.2.2.2.2.2.2.2.2.2 "bogus" (by decide)⟩

end EnergyDemand

namespace EnergyDemand

/-- The populated fueltype cells of
`assumptions['tech_enduse_by']['space_heating']` in `load_assumptions`:
gas {gas_boiler: 1.0}, electricity {elec_boiler2: 0.10, elec_boiler: 0.90},
oil {oil_boiler: 1.0}, hydrogen {hydrogen_boiler: 0.0}.  All other fueltype
cells are left as empty dicts. -/
def tech_enduse_by_space_heating : List (String × List (String × ℚ)) :=
  [("gas", [("gas_boiler", 1)]),
   ("electricity", [("elec_boiler2", 1 / 10), ("elec_boiler", 9 / 10)]),
   ("oil", [("oil_boiler", 1)]),
   ("hydrogen", [("hydrogen_boiler", 0)])]

/-- Sum of technology shares of one (enduse, fueltype) cell. -/
def cell_share_sum (cell : List (String × ℚ)) : ℚ :=
  (cell.map Prod.snd).sum

/-- C4 counterexample: the hydrogen fueltype of space heating is populated in
the base-year technology share table, but its shares sum to 0, not 1. -/
theorem tech_enduse_by_hydrogen_sum_zero :
    tech_enduse_by_space_heating.get? 3
      = some ("hydrogen", [("hydrogen_boiler", 0)]) ∧
    cell_share_sum [("hydrogen_boiler", (0 : ℚ))] = 0 ∧
    (0 : ℚ) ≠ 1 := by
  refine ⟨rfl, ?_, by norm_num⟩
  simp [cell_share_sum]

/-- C4 (amended): in the base-year technology share table, the technology
shares of every populated fueltype of space heating sum to 1.0 — except the
hydrogen cell, whose single technology carries share 0.0 so the cell sums
to 0. -/
theorem tech_enduse_by_space_heating_share_sums :
    ∀ cell ∈ tech_enduse_by_space_heating,
      (cell.1 ≠ "hydrogen" → cell_share_sum cell.2 = 1) ∧
      (cell.1 = "hydrogen" → cell_share_sum cell.2 = 0) := by
  intro cell hcell
  simp only [tech_enduse_by_space_heating, List.mem_cons, List.not_mem_nil,
    or_false] at hcell
  rcases hcell with rfl | rfl | rfl | rfl
  · exact ⟨fun _ => by norm_num [cell_share_sum], fun h => absurd h (by decide)⟩
  · exact ⟨fun _ => by norm_num [cell_share_sum], fun h => absurd h (by decide)⟩
  · exact ⟨fun _ => by norm_num [cell_share_sum], fun h => absurd h (by decide)⟩
  · exact ⟨fun h => absurd rfl h, fun _ => by norm_num [cell_share_sum]⟩

/-- C4 witness: the gas cell is in the table, is not the hydrogen cell, and
its shares sum to 1. -/
theorem tech_enduse_by_space_heating_share_sums_witness :
    (("gas", [("gas_boiler", (1 : ℚ))]) ∈ tech_enduse_by_space_heating) ∧
    cell_share_sum [("gas_boiler", (1 : ℚ))] = 1 := by
  have hmem : ("gas", [("gas_boiler", (1 : ℚ))]) ∈ tech_enduse_by_space_heating := by
    simp [tech_enduse_by_space_heating]
  refine ⟨hmem, ?_⟩
  exact (tech_enduse_by_space_heating_share_sums _ hmem).1 (by decide)

end EnergyDemand
